import Mathlib

/-!
Verification of the devcontainers CLI core (Rust) against its specification.

The development shallowly embeds the relevant Rust source files:
  * `crates/core/src/config/mod.rs`   — forward-port normalization, schema
    validation filtering, placeholder substitution, config resolution;
  * `crates/core/src/lifecycle/mod.rs` — lifecycle planning and execution;
  * `crates/providers/docker/src/lib.rs` — `DockerProvider::prepare` and
    `sanitize_name`.

Rust strings are Lean `String`s, `PathBuf` is a `String` (Unix paths),
machine integers are `Nat`/`Int`, fallible code returns `Except`, and the
provider's external effects (mutable call recording, subprocess results)
are explicit state threading through each operation.
-/

set_option autoImplicit false

deriving instance DecidableEq for Except

/-! ## String primitives mirroring the Rust standard library -/

/-- Unicode `White_Space` test used by Rust's `char::is_whitespace`
(and hence `str::trim` / `str::trim_start`). -/
def rustIsWhitespace (c : Char) : Bool :=
  let n := c.toNat
  (decide (9 ≤ n) && decide (n ≤ 13)) || decide (n = 32) || decide (n = 133) ||
  decide (n = 160) || decide (n = 5760) ||
  (decide (8192 ≤ n) && decide (n ≤ 8202)) || decide (n = 8232) ||
  decide (n = 8233) || decide (n = 8239) || decide (n = 8287) || decide (n = 12288)

/-- ASCII digit test, as used by Rust's integer parsing at radix 10. -/
def isAsciiDigit (c : Char) : Bool :=
  decide (48 ≤ c.toNat) && decide (c.toNat ≤ 57)

/-- Rust `str::trim`: drop leading and trailing whitespace. -/
def rustTrim (s : String) : String :=
  String.mk (((s.data.dropWhile rustIsWhitespace).reverse.dropWhile rustIsWhitespace).reverse)

/-- Rust `str::trim_start`: drop leading whitespace. -/
def rustTrimStart (s : String) : String :=
  String.mk (s.data.dropWhile rustIsWhitespace)

/-- Split a character list at the first occurrence of `sep`
(Rust `str::split_once`): the separator is dropped. -/
def splitOnceList (sep : Char) : List Char → Option (List Char × List Char)
  | [] => none
  | c :: rest =>
    if c = sep then some ([], rest)
    else
      match splitOnceList sep rest with
      | some (l, r) => some (c :: l, r)
      | none => none

/-- Rust `str::split_once` on strings. -/
def splitOnceStr (s : String) (sep : Char) : Option (String × String) :=
  (splitOnceList sep s.data).map (fun lr => (String.mk lr.1, String.mk lr.2))

/-- Digit-accumulation loop of Rust `u16::from_str` (radix 10): consume
digits left to right, failing with `InvalidDigit` on a non-digit and with
`PosOverflow` as soon as the accumulator leaves the `u16` range.  The
error value is the `Display` rendering of the corresponding
`ParseIntError`, since the source interpolates `{err}` into messages. -/
def parseU16Digits : List Char → Nat → Except String Nat
  | [], acc => .ok acc
  | d :: rest, acc =>
    if isAsciiDigit d then
      let acc2 := acc * 10 + (d.toNat - 48)
      if 65535 < acc2 then .error "number too large to fit in target type"
      else parseU16Digits rest acc2
    else .error "invalid digit found in string"

/-- Character-level body of `parseU16`: empty input is `Empty`; a single
leading `+` sign is allowed (`-` is not a sign for unsigned types); a
sign with no digits is `InvalidDigit`. -/
def parseU16Chars : List Char → Except String Nat
  | [] => .error "cannot parse integer from empty string"
  | c :: rest =>
    if c = '+' then
      match rest with
      | [] => .error "invalid digit found in string"
      | _ :: _ => parseU16Digits rest 0
    else parseU16Digits (c :: rest) 0

/-- Rust `str::parse::<u16>()`. -/
def parseU16 (s : String) : Except String Nat :=
  parseU16Chars s.data

/-- Prefix test on character lists (Rust `str::starts_with` on a literal). -/
def isPrefixList : List Char → List Char → Bool
  | [], _ => true
  | _ :: _, [] => false
  | p :: ps, c :: cs => p == c && isPrefixList ps cs

/-- Substring containment on character lists (Rust `str::contains`). -/
def containsList (pat : List Char) : List Char → Bool
  | [] => isPrefixList pat []
  | c :: rest => isPrefixList pat (c :: rest) || containsList pat rest

/-- Rust `str::contains` on strings. -/
def containsSubstr (s pat : String) : Bool :=
  containsList pat.data s.data

/-- Fuel-indexed worker for `replaceAll`; the fuel bounds the number of
scanned positions, so `s.length` fuel always suffices. -/
def replaceListAux (pat repl : List Char) : Nat → List Char → List Char
  | _, [] => []
  | 0, l => l
  | fuel + 1, c :: rest =>
    if isPrefixList pat (c :: rest) && !pat.isEmpty then
      repl ++ replaceListAux pat repl fuel ((c :: rest).drop pat.length)
    else
      c :: replaceListAux pat repl fuel rest

/-- Rust `str::replace`: replace every non-overlapping occurrence of
`pat`, scanning left to right.  (The source only calls this with the two
fixed non-empty placeholder patterns, so the empty-pattern behaviour is
irrelevant; this model leaves the string unchanged for an empty pattern.) -/
def replaceAll (s pat repl : String) : String :=
  String.mk (replaceListAux pat.data repl.data s.data.length s.data)

/-- Split a character list on a separator character, keeping empty pieces
(used to model path components). -/
def splitListOn (sep : Char) : List Char → List (List Char)
  | [] => [[]]
  | c :: rest =>
    let r := splitListOn sep rest
    if c = sep then [] :: r
    else
      match r with
      | h :: t => (c :: h) :: t
      | [] => [[c]]

/-! ## Path primitives mirroring `std::path` on Unix -/

/-- Rust `Path::is_absolute` on Unix: the path begins with `/`. -/
def isAbsoluteStr (p : String) : Bool :=
  match p.data with
  | '/' :: _ => true
  | _ => false

/-- Rust `Path::file_name`: the final normal component (`.` and empty
components are dropped); `None` for the root, the empty path, or a path
ending in `..`. -/
def fileName (p : String) : Option String :=
  let comps := (splitListOn '/' p.data).filter (fun c => !c.isEmpty && c != ['.'])
  match comps.getLast? with
  | none => none
  | some last => if last = ['.', '.'] then none else some (String.mk last)

/-- Rust `Path::join` (via `PathBuf::push`): an absolute argument replaces
the base; otherwise the argument is appended behind a `/` separator. -/
def rustJoin (base p : String) : String :=
  if isAbsoluteStr p then p
  else if base = "" then p
  else if base.data.getLast? = some '/' then base ++ p
  else base ++ "/" ++ p

/-- Rust `Path::parent` for the well-formed file paths the resolver sees
(no trailing slash): everything before the last `/`, `Some ""` for a bare
file name, `None` for the root or the empty path. -/
def parentPath (p : String) : Option String :=
  if p = "/" then none
  else
    match splitOnceList '/' p.data.reverse with
    | none => if p = "" then none else some ""
    | some (_, restRev) => if restRev = [] then some "/" else some (String.mk restRev.reverse)

/-! ## Error type (`crates/core/src/errors.rs`) -/

/-- `DevcontainerError` from `errors.rs`; the `Other(anyhow::Error)`
variant is carried as its rendered message. -/
inductive DevcontainerError where
  | Configuration (msg : String)
  | Provider (msg : String)
  | Unsupported (msg : String)
  | Other (msg : String)
  deriving DecidableEq, Repr

/-! ## Forward ports (`crates/core/src/config/mod.rs`, lines 99–149) -/

inductive PortProtocol where
  | tcp
  | udp
  deriving DecidableEq, Repr

structure ForwardPort where
  localPort : Nat
  containerPort : Nat
  protocol : PortProtocol
  deriving DecidableEq, Repr

/-- `ForwardPortDefinition`: a bare `u16` or a string. -/
inductive ForwardPortDefinition where
  | number (port : Nat)
  | string (value : String)
  deriving DecidableEq, Repr

/-- The local/container split performed on a trimmed port string
(config/mod.rs lines 124–127): cut at the first `:`, or use the whole
string for both sides. -/
def splitParts (t : String) : String × String :=
  match splitOnceStr t ':' with
  | some lc => lc
  | none => (t, t)

/-- `TryFrom<ForwardPortDefinition> for ForwardPort` (config/mod.rs
lines 106–149), translated clause by clause: trim the string, reject the
empty result, split at the first `:` (or duplicate the whole string),
parse the container side first, then the local side. -/
def ForwardPort.tryFrom : ForwardPortDefinition → Except DevcontainerError ForwardPort
  | .number port => .ok { localPort := port, containerPort := port, protocol := .tcp }
  | .string value =>
    let trimmed := rustTrim value
    if trimmed = "" then
      .error (.Configuration "Invalid forward port value \x27\x27: value must not be empty")
    else
      let parts := splitParts trimmed
      match parseU16 parts.2 with
      | .error err =>
        .error (.Configuration ("Invalid forward port value \x27" ++ value ++ "\x27: container port: " ++ err))
      | .ok containerPort =>
        match parseU16 parts.1 with
        | .error err =>
          .error (.Configuration ("Invalid forward port value \x27" ++ value ++ "\x27: local port: " ++ err))
        | .ok localPort => .ok { localPort, containerPort, protocol := .tcp }

/-! ### Facts about successful `u16` parses -/

theorem parseU16Digits_ok_digits :
    ∀ (l : List Char) (acc n : Nat), parseU16Digits l acc = .ok n →
      ∀ c ∈ l, isAsciiDigit c = true := by
  intro l
  induction l with
  | nil => intro acc n _ c hc; cases hc
  | cons d rest ih =>
    intro acc n h c hc
    cases hd : isAsciiDigit d with
    | false => simp [parseU16Digits, hd] at h
    | true =>
      simp only [parseU16Digits, hd, if_true] at h
      split at h
      · cases h
      · cases hc with
        | head => exact hd
        | tail _ hc => exact ih _ _ h c hc

theorem isAsciiDigit_not_ws (c : Char) (h : isAsciiDigit c = true) :
    rustIsWhitespace c = false := by
  simp only [isAsciiDigit, Bool.and_eq_true, decide_eq_true_eq] at h
  simp only [rustIsWhitespace, Bool.or_eq_false_iff, Bool.and_eq_false_iff,
    decide_eq_false_iff_not]
  omega

theorem plus_not_ws : rustIsWhitespace '+' = false := by decide

/-- Getting a `some` out of `getLast?` exhibits a member of the list. -/
theorem mem_of_getLastQ : ∀ (l : List Char) (c : Char), l.getLast? = some c → c ∈ l := by
  intro l
  induction l with
  | nil => intro c h; cases h
  | cons a t ih =>
    intro c h
    cases t with
    | nil => cases h; exact List.mem_singleton.mpr rfl
    | cons b u =>
      rw [List.getLast?_cons_cons] at h
      exact List.mem_cons_of_mem a (ih c h)

/-- A successful `parseU16` forces a non-empty string whose first and last
characters are not whitespace (they are `+` or digits). -/
theorem parseU16_ok_shape (t : String) (n : Nat) (h : parseU16 t = .ok n) :
    t.data ≠ [] ∧ (∀ c, t.data.head? = some c → rustIsWhitespace c = false) ∧
      (∀ c, t.data.getLast? = some c → rustIsWhitespace c = false) := by
  rw [parseU16] at h
  cases ht : t.data with
  | nil => rw [ht, parseU16Chars] at h; cases h
  | cons c rest =>
    rw [ht] at h
    simp only [parseU16Chars] at h
    refine ⟨by simp, ?_, ?_⟩
    · intro x hx
      rw [List.head?_cons, Option.some.injEq] at hx
      subst hx
      by_cases hc : c = '+'
      · rw [hc]; exact plus_not_ws
      · rw [if_neg hc] at h
        exact isAsciiDigit_not_ws c (parseU16Digits_ok_digits _ _ _ h c (List.mem_cons_self c rest))
    · intro x hx
      by_cases hc : c = '+'
      · subst hc
        rw [if_pos rfl] at h
        cases rest with
        | nil => cases h
        | cons r rs =>
          rw [List.getLast?_cons_cons] at hx
          exact isAsciiDigit_not_ws x
            (parseU16Digits_ok_digits _ _ _ h x (mem_of_getLastQ _ _ hx))
      · rw [if_neg hc] at h
        exact isAsciiDigit_not_ws x
          (parseU16Digits_ok_digits _ _ _ h x (mem_of_getLastQ _ _ hx))

theorem dropWhile_eq_self_of_head {p : Char → Bool} {l : List Char}
    (h : ∀ c, l.head? = some c → p c = false) : l.dropWhile p = l := by
  cases l with
  | nil => rfl
  | cons a t =>
    have ha := h a rfl
    simp [List.dropWhile_cons, ha]

/-- Strings that neither start nor end in whitespace are fixed by `rustTrim`. -/
theorem rustTrim_eq_self (t : String)
    (hh : ∀ c, t.data.head? = some c → rustIsWhitespace c = false)
    (hl : ∀ c, t.data.getLast? = some c → rustIsWhitespace c = false) :
    rustTrim t = t := by
  unfold rustTrim
  rw [dropWhile_eq_self_of_head hh]
  rw [dropWhile_eq_self_of_head (by
    intro c hc
    rw [List.head?_reverse] at hc
    exact hl c hc)]
  rw [List.reverse_reverse]

/-- Splitting succeeds exactly by cutting the list at the separator. -/
theorem splitOnceList_append (sep : Char) :
    ∀ (l a b : List Char), splitOnceList sep l = some (a, b) → l = a ++ sep :: b := by
  intro l
  induction l with
  | nil => intro a b h; cases h
  | cons c rest ih =>
    intro a b h
    rw [splitOnceList] at h
    by_cases hc : c = sep
    · rw [if_pos hc] at h
      cases h
      rw [hc]; rfl
    · rw [if_neg hc] at h
      cases hrec : splitOnceList sep rest with
      | none => rw [hrec] at h; cases h
      | some lr =>
        obtain ⟨l', r'⟩ := lr
        simp only [hrec, Option.some.injEq, Prod.mk.injEq] at h
        obtain ⟨ha, hb⟩ := h
        subst ha; subst hb
        simpa using ih l' r' hrec

example : ForwardPort.tryFrom (.number 3000) = .ok ⟨3000, 3000, .tcp⟩ := by decide
example : ForwardPort.tryFrom (.string "4000:9229") = .ok ⟨4000, 9229, .tcp⟩ := by decide
example : ForwardPort.tryFrom (.string " 80") = .ok ⟨80, 80, .tcp⟩ := by decide
example : ForwardPort.tryFrom (.string "abc") =
    .error (.Configuration "Invalid forward port value \x27abc\x27: container port: invalid digit found in string") := by
  decide
example : ForwardPort.tryFrom (.string "   ") =
    .error (.Configuration "Invalid forward port value \x27\x27: value must not be empty") := by decide
example : parseU16 "+80" = .ok 80 := by decide
example : parseU16 "99999" = .error "number too large to fit in target type" := by decide

/-- Helper: a `splitParts` result determines the decomposition of the
input string around the first `:`, or its absence. -/
theorem splitParts_cases (t lpart cpart : String) (h : splitParts t = (lpart, cpart)) :
    (splitOnceStr t ':' = none ∧ lpart = t ∧ cpart = t) ∨
      (splitOnceStr t ':' = some (lpart, cpart) ∧ t.data = lpart.data ++ ':' :: cpart.data) := by
  rw [splitParts] at h
  cases hsp : splitOnceStr t ':' with
  | none =>
    rw [hsp] at h
    left
    refine ⟨rfl, ?_, ?_⟩
    · exact (congrArg Prod.fst h).symm
    · exact (congrArg Prod.snd h).symm
  | some lr =>
    obtain ⟨l0, r0⟩ := lr
    simp only [hsp] at h
    obtain ⟨h1, h2⟩ := Prod.mk.injEq .. ▸ h
    subst h1; subst h2
    right
    refine ⟨rfl, ?_⟩
    rw [splitOnceStr] at hsp
    cases hsl : splitOnceList ':' t.data with
    | none => rw [hsl] at hsp; cases hsp
    | some ab =>
      obtain ⟨a, b⟩ := ab
      rw [hsl] at hsp
      simp only [Option.map_some'] at hsp
      obtain ⟨ha, hb⟩ := Prod.mk.injEq .. ▸ (Option.some.inj hsp)
      rw [← ha, ← hb]
      exact splitOnceList_append ':' t.data a b hsl

/-- C1: normalization maps a bare integer `P` to
`{local_port = P, container_port = P, protocol = tcp}`, and maps a string
whose first-`:` split yields a local part parsing to `L` and a container
part parsing to `C` (both sides equal to the whole string when there is
no `:`) to `{local_port = L, container_port = C, protocol = tcp}`. -/
theorem forward_port_normalization (p : Nat) (s lpart cpart : String) (L C : Nat)
    (hsplit : splitParts s = (lpart, cpart))
    (hL : parseU16 lpart = .ok L) (hC : parseU16 cpart = .ok C) :
    ForwardPort.tryFrom (.number p) =
      .ok { localPort := p, containerPort := p, protocol := .tcp } ∧
    ForwardPort.tryFrom (.string s) =
      .ok { localPort := L, containerPort := C, protocol := .tcp } := by
  refine ⟨rfl, ?_⟩
  rcases splitParts_cases s lpart cpart hsplit with ⟨hsp, h1, h2⟩ | ⟨hsp, hdata⟩
  · -- no colon: both parts are the whole string
    rw [h1] at hL
    rw [h2] at hC
    obtain ⟨hne, hh, hl⟩ := parseU16_ok_shape s L hL
    have htrim : rustTrim s = s := rustTrim_eq_self s hh hl
    obtain rfl : L = C := by rw [hL] at hC; exact Except.ok.inj hC
    have hne' : ¬ (s = "") := by
      intro he; subst he; exact hne rfl
    simp only [ForwardPort.tryFrom]
    simp [htrim, hne', hsplit, h1, h2, hL]
  · -- colon at some position: the string is lpart ++ ":" ++ cpart
    obtain ⟨hneL, hhL, hlL⟩ := parseU16_ok_shape lpart L hL
    obtain ⟨hneC, hhC, hlC⟩ := parseU16_ok_shape cpart C hC
    have hh : ∀ c, s.data.head? = some c → rustIsWhitespace c = false := by
      intro c hc
      rw [hdata, List.head?_append_of_ne_nil _ hneL] at hc
      exact hhL c hc
    have hl : ∀ c, s.data.getLast? = some c → rustIsWhitespace c = false := by
      intro c hc
      rw [hdata, show lpart.data ++ ':' :: cpart.data = (lpart.data ++ [':']) ++ cpart.data by
        simp] at hc
      rw [List.getLast?_append_of_ne_nil _ hneC] at hc
      exact hlC c hc
    have htrim : rustTrim s = s := rustTrim_eq_self s hh hl
    have hne' : ¬ (s = "") := by
      intro he
      rw [he] at hdata
      simp at hdata
    simp only [ForwardPort.tryFrom]
    simp [htrim, hne', hsplit, hL, hC]

/-- Witness instantiating `forward_port_normalization` at the spec's own
examples `3000` and `"4000:9229"`. -/
theorem forward_port_normalization_witness :
    ForwardPort.tryFrom (.number 3000) =
      .ok { localPort := 3000, containerPort := 3000, protocol := .tcp } ∧
    ForwardPort.tryFrom (.string "4000:9229") =
      .ok { localPort := 4000, containerPort := 9229, protocol := .tcp } :=
  forward_port_normalization 3000 "4000:9229" "4000" "9229" 4000 9229
    (by decide) (by decide) (by decide)

/-- C2 counterexample: the string `" 80"` is non-empty and its local part
(the whole string, as it contains no `:`) does not parse as a `u16`
(Rust rejects leading whitespace), so the claim demands a Configuration
error; yet normalization trims the string first and succeeds with port
`80`. -/
theorem forward_port_error_counterexample :
    ForwardPort.tryFrom (.string " 80") =
      .ok { localPort := 80, containerPort := 80, protocol := .tcp } ∧
    splitParts " 80" = (" 80", " 80") ∧
    parseU16 " 80" = .error "invalid digit found in string" ∧
    (" 80" : String) ≠ "" := by
  refine ⟨by decide, by decide, by decide, by decide⟩

/-- C2 as amended: the trimming step is acknowledged.  For a string that
trims to empty, normalization fails with the fixed must-not-be-empty
message (which renders the value as `''`); for any other string whose
trimmed form's container or local part fails `u16` parsing, it fails with
a Configuration error containing the original string and naming the
failing side (container side checked first).  It never succeeds on such
inputs. -/
theorem forward_port_error_amended (v : String) :
    (rustTrim v = "" →
      ForwardPort.tryFrom (.string v) =
        .error (.Configuration "Invalid forward port value \x27\x27: value must not be empty")) ∧
    (∀ lpart cpart err, rustTrim v ≠ "" →
      splitParts (rustTrim v) = (lpart, cpart) →
      parseU16 cpart = .error err →
      ForwardPort.tryFrom (.string v) =
        .error (.Configuration
          ("Invalid forward port value \x27" ++ v ++ "\x27: container port: " ++ err))) ∧
    (∀ lpart cpart C err, rustTrim v ≠ "" →
      splitParts (rustTrim v) = (lpart, cpart) →
      parseU16 cpart = .ok C →
      parseU16 lpart = .error err →
      ForwardPort.tryFrom (.string v) =
        .error (.Configuration
          ("Invalid forward port value \x27" ++ v ++ "\x27: local port: " ++ err))) := by
  refine ⟨?_, ?_, ?_⟩
  · intro h
    simp only [ForwardPort.tryFrom]
    simp [h]
  · intro lpart cpart err hne hsplit herr
    simp only [ForwardPort.tryFrom]
    simp [hne, hsplit, herr]
  · intro lpart cpart C err hne hsplit hok herr
    simp only [ForwardPort.tryFrom]
    simp [hne, hsplit, hok, herr]

/-- Witness instantiating `forward_port_error_amended` at the spec's own
examples: the whitespace-only string (which trims to empty) and the
malformed string `"abc"`. -/
theorem forward_port_error_amended_witness :
    ForwardPort.tryFrom (.string "   ") =
      .error (.Configuration "Invalid forward port value \x27\x27: value must not be empty") ∧
    ForwardPort.tryFrom (.string "abc") =
      .error (.Configuration
        "Invalid forward port value \x27abc\x27: container port: invalid digit found in string") :=
  ⟨(forward_port_error_amended "   ").1 (by decide),
   by
    have h := (forward_port_error_amended "abc").2.1 "abc" "abc"
      "invalid digit found in string" (by decide) (by decide) (by decide)
    exact h⟩

/-! ## Commands and configuration records (`crates/core/src/config/mod.rs`) -/

/-- `CommandArgs`: a shell string or an explicit argv. -/
inductive CommandArgs where
  | string (command : String)
  | array (args : List String)
  deriving DecidableEq, Repr

/-- `CommandArgs::to_exec_args` (config/mod.rs lines 158–167): a shell
string becomes `/bin/sh -c <command>`, an array is used verbatim. -/
def CommandArgs.toExecArgs : CommandArgs → List String
  | .string command => ["/bin/sh", "-c", command]
  | .array args => args

/-- `CommandDefinition`: a single command, or a named map of parallel
commands.  The Rust `BTreeMap<String, CommandArgs>` iterates in ascending
key order; it is modelled as the association list of its entries in that
order. -/
inductive CommandDefinition where
  | single (args : CommandArgs)
  | parallel (commands : List (String × CommandArgs))
  deriving DecidableEq, Repr

/-- The two placeholders of `resolve_local_workspace_placeholders`
(config/mod.rs lines 60–76). -/
def localWorkspaceFolderPlaceholder : String := "$\x7blocalWorkspaceFolder\x7d"

def localWorkspaceFolderBasenamePlaceholder : String := "$\x7blocalWorkspaceFolderBasename\x7d"

/-- `resolve_local_workspace_placeholders` (config/mod.rs lines 60–76):
substitute `${localWorkspaceFolderBasename}` (only when the workspace
root has a final component) and then `${localWorkspaceFolder}`. -/
def resolveLocalWorkspacePlaceholders (input : String) (workspaceRoot : String) : String :=
  let result := input
  let result :=
    if containsSubstr result localWorkspaceFolderBasenamePlaceholder then
      match fileName workspaceRoot with
      | some name => replaceAll result localWorkspaceFolderBasenamePlaceholder name
      | none => result
    else result
  let result :=
    if containsSubstr result localWorkspaceFolderPlaceholder then
      replaceAll result localWorkspaceFolderPlaceholder workspaceRoot
    else result
  result

/-- `DevcontainerConfig`: the deserialized document (config/mod.rs lines
79–97).  The opaque `features` map plays no role in any claim and is not
modelled. -/
structure DevcontainerConfig where
  name : Option String := none
  image : Option String := none
  dockerFile : Option String := none
  workspaceFolder : Option String := none
  forwardPorts : List ForwardPortDefinition := []
  postCreateCommand : Option CommandDefinition := none
  postAttachCommand : Option CommandDefinition := none
  deriving DecidableEq, Repr

/-- `ResolvedConfig` (config/mod.rs lines 187–206), minus the unmodelled
opaque `features` map. -/
structure ResolvedConfig where
  projectName : String
  workspaceFolder : String
  containerWorkspaceFolder : Option String := none
  configPath : String
  imageReference : Option String := none
  dockerfile : Option String := none
  forwardPorts : List ForwardPort := []
  postCreateCommand : Option CommandDefinition := none
  postAttachCommand : Option CommandDefinition := none
  deriving DecidableEq, Repr

/-- `ConfigOverrides` (config/mod.rs lines 403–409); the `env` map is
never read by `resolve` and is not modelled. -/
structure ConfigOverrides where
  projectName : Option String := none
  workspaceFolder : Option String := none
  imageReference : Option String := none
  deriving DecidableEq, Repr

/-- The `collect::<Result<_, _>>` over `ForwardPort::try_from`
(config/mod.rs lines 282–285): stop at the first error. -/
def mapForwardPorts : List ForwardPortDefinition → Except DevcontainerError (List ForwardPort)
  | [] => .ok []
  | d :: rest =>
    match ForwardPort.tryFrom d with
    | .error e => .error e
    | .ok p =>
      match mapForwardPorts rest with
      | .error e => .error e
      | .ok ps => .ok (p :: ps)

/-- Pure core of `ConfigResolver::resolve` (config/mod.rs lines 271–361):
everything after the filesystem read, JSON parse and schema validation.
`configPath` is the located configuration file and `workspaceRoot` the
root chosen on lines 301–304 (the workspace directory for a
`ConfigSource::Workspace`, the configuration file's directory for an
`ConfigSource::ExplicitFile`). -/
def resolveCore (config : DevcontainerConfig) (configPath workspaceRoot : String)
    (overrides : ConfigOverrides) : Except DevcontainerError ResolvedConfig :=
  match mapForwardPorts config.forwardPorts with
  | .error e => .error e
  | .ok forwardPorts =>
    let configDir := (parentPath configPath).getD "."
    let dockerfile := config.dockerFile.map (fun path =>
      if isAbsoluteStr path then path else rustJoin configDir path)
    let workspaceFolderOverride := overrides.workspaceFolder
    let workspaceFolderFromConfig := config.workspaceFolder.bind (fun folder =>
      if isAbsoluteStr (rustTrimStart folder) then none
      else
        let substituted := resolveLocalWorkspacePlaceholders folder workspaceRoot
        if isAbsoluteStr substituted then some substituted
        else some (rustJoin workspaceRoot substituted))
    let workspaceFolder := (workspaceFolderOverride.orElse
      (fun _ => workspaceFolderFromConfig)).getD workspaceRoot
    let containerWorkspaceFolder := config.workspaceFolder.bind (fun folder =>
      if isAbsoluteStr (rustTrimStart folder) then
        some (resolveLocalWorkspacePlaceholders folder workspaceRoot)
      else none)
    let projectName := ((overrides.projectName.orElse (fun _ => config.name)).orElse
      (fun _ => fileName workspaceRoot)).getD "devcontainer"
    let imageReference := overrides.imageReference.orElse (fun _ => config.image)
    .ok {
      projectName := projectName
      workspaceFolder := workspaceFolder
      containerWorkspaceFolder := containerWorkspaceFolder
      configPath := configPath
      imageReference := imageReference
      dockerfile := dockerfile
      forwardPorts := forwardPorts
      postCreateCommand := config.postCreateCommand
      postAttachCommand := config.postAttachCommand }

example :
    (resolveCore { workspaceFolder := some "nested/project" }
        "/ws/.devcontainer/devcontainer.json" "/ws" {}).map
      (fun c => (c.workspaceFolder, c.containerWorkspaceFolder)) =
    .ok ("/ws/nested/project", none) := by decide

example :
    (resolveCore { workspaceFolder := some "/workspace/$\x7blocalWorkspaceFolderBasename\x7d" }
        "/tmp/myproj/.devcontainer/devcontainer.json" "/tmp/myproj" {}).map
      (fun c => (c.workspaceFolder, c.containerWorkspaceFolder)) =
    .ok ("/tmp/myproj", some "/workspace/myproj") := by decide

/-- C3 counterexample: the document value `" /x"` does not start with
`/`, so the claim requires the host workspace folder to be the root
joined with the (substituted) value and the container-side folder to stay
unset; but the source tests `folder.trim_start().starts_with('/')`
(config/mod.rs lines 309 and 327), so this value is treated as
container-absolute: the host folder stays `"/ws"` and the container-side
folder becomes `" /x"`. -/
theorem workspace_folder_counterexample :
    (resolveCore { workspaceFolder := some " /x" }
        "/ws/.devcontainer/devcontainer.json" "/ws" {}).map
      (fun c => (c.workspaceFolder, c.containerWorkspaceFolder)) =
      .ok ("/ws", some " /x") ∧
    isAbsoluteStr " /x" = false ∧
    (("/ws" : String), (some " /x" : Option String)) ≠
      (rustJoin "/ws" (resolveLocalWorkspacePlaceholders " /x" "/ws"), none) := by
  refine ⟨by decide, by decide, by decide⟩

/-- C3 as amended: with no workspace-folder override, a document
`workspaceFolder` value counts as container-absolute when it starts with
`/` after skipping leading whitespace; such a value leaves the host
workspace folder at the workspace root and becomes (after placeholder
substitution of the original, untrimmed value) the container-side
workspace folder; any other value is substituted and joined onto the
workspace root, with the container-side folder unset. -/
theorem workspace_folder_amended (cfg : DevcontainerConfig)
    (folder configPath root : String)
    (hwf : cfg.workspaceFolder = some folder) (hports : cfg.forwardPorts = []) :
    (isAbsoluteStr (rustTrimStart folder) = true →
      (resolveCore cfg configPath root {}).map
          (fun c => (c.workspaceFolder, c.containerWorkspaceFolder)) =
        .ok (root, some (resolveLocalWorkspacePlaceholders folder root))) ∧
    (isAbsoluteStr (rustTrimStart folder) = false →
      (resolveCore cfg configPath root {}).map
          (fun c => (c.workspaceFolder, c.containerWorkspaceFolder)) =
        .ok (rustJoin root (resolveLocalWorkspacePlaceholders folder root), none)) := by
  constructor
  · intro habs
    simp only [resolveCore, hports, mapForwardPorts, hwf]
    simp [habs, Except.map]
  · intro habs
    simp only [resolveCore, hports, mapForwardPorts, hwf]
    by_cases hsub : isAbsoluteStr (resolveLocalWorkspacePlaceholders folder root) = true
    · simp [habs, hsub, rustJoin, Except.map]
    · simp only [Bool.not_eq_true] at hsub
      simp [habs, hsub, rustJoin, Except.map]

/-- Witness instantiating `workspace_folder_amended` at the spec's own
placeholder example (root named `myproj`) and at the relative example
`nested/project`. -/
theorem workspace_folder_amended_witness :
    (resolveCore { workspaceFolder := some "/workspace/$\x7blocalWorkspaceFolderBasename\x7d" }
        "/tmp/myproj/.devcontainer/devcontainer.json" "/tmp/myproj" {}).map
      (fun c => (c.workspaceFolder, c.containerWorkspaceFolder)) =
      .ok ("/tmp/myproj", some "/workspace/myproj") ∧
    (resolveCore { workspaceFolder := some "nested/project" }
        "/ws/.devcontainer/devcontainer.json" "/ws" {}).map
      (fun c => (c.workspaceFolder, c.containerWorkspaceFolder)) =
      .ok ("/ws/nested/project", none) := by
  constructor
  · have h := (workspace_folder_amended
      { workspaceFolder := some "/workspace/$\x7blocalWorkspaceFolderBasename\x7d" }
      "/workspace/$\x7blocalWorkspaceFolderBasename\x7d"
      "/tmp/myproj/.devcontainer/devcontainer.json" "/tmp/myproj" rfl rfl).1 (by decide)
    exact h.trans (by decide)
  · have h := (workspace_folder_amended { workspaceFolder := some "nested/project" }
      "nested/project" "/ws/.devcontainer/devcontainer.json" "/ws" rfl rfl).2 (by decide)
    exact h.trans (by decide)

/-! ## Lifecycle planning (`crates/core/src/lifecycle/mod.rs`) -/

inductive LifecyclePhase where
  | resolve
  | build
  | create
  | start
  | postCreate
  | postAttach
  deriving DecidableEq, Repr, BEq

inductive LifecycleHook where
  | postCreate
  | postAttach
  deriving DecidableEq, Repr

/-- `Display for LifecycleHook` (lifecycle/mod.rs lines 87–95). -/
def hookDisplay : LifecycleHook → String
  | .postCreate => "postCreate"
  | .postAttach => "postAttach"

inductive HookAction where
  | execute
  | skip (reason : String)
  deriving DecidableEq, Repr

inductive LifecycleEventDetail where
  | resolveConfig (configPath : String)
  | buildImage (imageReference : Option String)
  | createContainer (projectName : String) (workspaceFolder : String)
  | startContainer (projectName : String)
  | hook (hook : LifecycleHook) (action : HookAction)
  deriving DecidableEq, Repr

structure LifecycleEvent where
  code : String
  message : String
  detail : LifecycleEventDetail
  deriving DecidableEq, Repr

structure LifecycleStep where
  phase : LifecyclePhase
  event : LifecycleEvent
  deriving DecidableEq, Repr

structure LifecyclePlan where
  steps : List LifecycleStep := []
  deriving DecidableEq, Repr

/-- `LifecyclePlan::step_for_phase` (lifecycle/mod.rs lines 123–125). -/
def LifecyclePlan.stepForPhase (plan : LifecyclePlan) (phase : LifecyclePhase) :
    Option LifecycleStep :=
  plan.steps.find? (fun step => step.phase == phase)

structure LifecyclePlanOptions where
  skipPostCreate : Option String := none
  skipPostAttach : Option String := none
  deriving DecidableEq, Repr

def noPostCreateCommandReason : String := "No postCreate command defined in configuration"

def noPostAttachCommandReason : String := "No postAttach command defined in configuration"

/-- Hook action decision for PostCreate inside `for_up` (lifecycle/mod.rs
lines 196–204): caller-supplied skip reason, else fixed skip when no
command is configured, else execute. -/
def postCreateActionFor (config : ResolvedConfig) (options : LifecyclePlanOptions) :
    HookAction :=
  match options.skipPostCreate with
  | some reason => HookAction.skip reason
  | none =>
    if config.postCreateCommand.isNone then HookAction.skip noPostCreateCommandReason
    else HookAction.execute

/-- Hook action decision for PostAttach inside `for_up` (lifecycle/mod.rs
lines 230–238). -/
def postAttachActionFor (config : ResolvedConfig) (options : LifecyclePlanOptions) :
    HookAction :=
  match options.skipPostAttach with
  | some reason => HookAction.skip reason
  | none =>
    if config.postAttachCommand.isNone then HookAction.skip noPostAttachCommandReason
    else HookAction.execute

/-- The Resolve step pushed by `for_up` (lifecycle/mod.rs lines 138–150). -/
def resolveStepFor (config : ResolvedConfig) : LifecycleStep :=
  { phase := .resolve
    event := {
      code := "lifecycle.resolve.config"
      message := "Resolve devcontainer configuration from " ++ config.configPath
      detail := .resolveConfig config.configPath } }

/-- The Build step pushed by `for_up` (lifecycle/mod.rs lines 152–166). -/
def buildStepFor (config : ResolvedConfig) : LifecycleStep :=
  { phase := .build
    event := {
      code := "lifecycle.build.image"
      message :=
        match config.imageReference with
        | some image => "Ensure devcontainer image " ++ image ++ " is available"
        | none => "Build devcontainer image from workspace configuration"
      detail := .buildImage config.imageReference } }

/-- The Create step pushed by `for_up` (lifecycle/mod.rs lines 168–178). -/
def createStepFor (config : ResolvedConfig) : LifecycleStep :=
  { phase := .create
    event := {
      code := "lifecycle.create.container"
      message := "Create container for project " ++ config.projectName
      detail := .createContainer config.projectName config.workspaceFolder } }

/-- The Start step pushed by `for_up` (lifecycle/mod.rs lines 180–189). -/
def startStepFor (config : ResolvedConfig) : LifecycleStep :=
  { phase := .start
    event := {
      code := "lifecycle.start.container"
      message := "Start container for project " ++ config.projectName
      detail := .startContainer config.projectName } }

/-- The PostCreate step pushed by `for_up` (lifecycle/mod.rs lines
206–228). -/
def postCreateStepFor (config : ResolvedConfig) (options : LifecyclePlanOptions) :
    LifecycleStep :=
  { phase := .postCreate
    event := {
      code :=
        match postCreateActionFor config options with
        | .execute => "lifecycle.hook.postCreate"
        | .skip _ => "lifecycle.hook.postCreate.skip"
      message :=
        match postCreateActionFor config options with
        | .execute => "Run postCreate lifecycle hook"
        | .skip reason => "Skip postCreate lifecycle hook (" ++ reason ++ ")"
      detail := .hook .postCreate (postCreateActionFor config options) } }

/-- The PostAttach step pushed by `for_up` (lifecycle/mod.rs lines
240–262). -/
def postAttachStepFor (config : ResolvedConfig) (options : LifecyclePlanOptions) :
    LifecycleStep :=
  { phase := .postAttach
    event := {
      code :=
        match postAttachActionFor config options with
        | .execute => "lifecycle.hook.postAttach"
        | .skip _ => "lifecycle.hook.postAttach.skip"
      message :=
        match postAttachActionFor config options with
        | .execute => "Run postAttach lifecycle hook"
        | .skip reason => "Skip postAttach lifecycle hook (" ++ reason ++ ")"
      detail := .hook .postAttach (postAttachActionFor config options) } }

/-- `LifecyclePlan::for_up` (lifecycle/mod.rs lines 135–265), translated
push by push.  It is a plain function of its two arguments — the Rust
function performs no I/O — so determinism is by construction. -/
def LifecyclePlan.forUp (config : ResolvedConfig) (options : LifecyclePlanOptions) :
    LifecyclePlan :=
  { steps := [
      resolveStepFor config,
      buildStepFor config,
      createStepFor config,
      startStepFor config,
      postCreateStepFor config options,
      postAttachStepFor config options ] }

/-- `step_for_phase` on a `for_up` plan finds the PostCreate step. -/
theorem stepForPhase_forUp_postCreate (config : ResolvedConfig)
    (options : LifecyclePlanOptions) :
    (LifecyclePlan.forUp config options).stepForPhase .postCreate =
      some (postCreateStepFor config options) := rfl

/-- `step_for_phase` on a `for_up` plan finds the PostAttach step. -/
theorem stepForPhase_forUp_postAttach (config : ResolvedConfig)
    (options : LifecyclePlanOptions) :
    (LifecyclePlan.forUp config options).stepForPhase .postAttach =
      some (postAttachStepFor config options) := rfl

/-- C4: for every resolved configuration and every set of plan options,
`LifecyclePlan::for_up` produces exactly six steps whose phases are, in
order, Resolve, Build, Create, Start, PostCreate, PostAttach — hence each
phase appears exactly once.  `for_up` is a plain Lean function (the Rust
source performs no I/O), so it is pure and deterministic by construction. -/
theorem plan_for_up_phases (config : ResolvedConfig) (options : LifecyclePlanOptions) :
    (LifecyclePlan.forUp config options).steps.map (fun step => step.phase) =
      [.resolve, .build, .create, .start, .postCreate, .postAttach] := by
  rfl

/-- C5: the hook action in the PostCreate (index 4) and PostAttach
(index 5) steps follows the precedence: a caller-supplied skip reason
wins; otherwise a missing command yields the fixed no-command-defined
skip reason; otherwise the hook executes. -/
theorem plan_for_up_hook_actions (config : ResolvedConfig) (options : LifecyclePlanOptions) :
    (((LifecyclePlan.forUp config options).steps.get? 4).map (fun step => step.event.detail) =
      some (.hook .postCreate
        (match options.skipPostCreate with
         | some reason => HookAction.skip reason
         | none =>
           if config.postCreateCommand.isNone then HookAction.skip noPostCreateCommandReason
           else HookAction.execute))) ∧
    (((LifecyclePlan.forUp config options).steps.get? 5).map (fun step => step.event.detail) =
      some (.hook .postAttach
        (match options.skipPostAttach with
         | some reason => HookAction.skip reason
         | none =>
           if config.postAttachCommand.isNone then HookAction.skip noPostAttachCommandReason
           else HookAction.execute))) := by
  exact ⟨rfl, rfl⟩

/-! ## Provider contract (`crates/core/src/provider/mod.rs`) and executor -/

structure ProviderBuildContext where
  dockerfile : String
  buildContext : String
  tag : String
  deriving DecidableEq, Repr

inductive ProviderImage where
  | reference (value : String)
  | build (context : ProviderBuildContext)
  deriving DecidableEq, Repr

structure VolumeSpec where
  name : String
  mountPath : String
  deriving DecidableEq, Repr

structure ProviderPreparation where
  image : ProviderImage
  containerName : String
  projectSlug : String
  networks : List String
  volumes : List VolumeSpec
  workspaceMountPath : String
  deriving DecidableEq, Repr

structure RunningContainer where
  id : Option String := none
  name : Option String := none
  deriving DecidableEq, Repr

structure ExecResult where
  exitCode : Int := 0
  stdout : String := ""
  stderr : String := ""
  deriving DecidableEq, Repr

/-- The `Provider` trait operations used by `LifecycleExecutor::execute`
(provider/mod.rs lines 78–130).  Each async operation with external
effects is embedded as an explicit state transformer on a state type `σ`
(the provider's mutable/environment state), returning its `Result`
together with the updated state — mirroring that a Rust provider's
internal mutations survive an `Err` return.  `stop_container` and
`cleanup` are never called by `execute` and are not modelled. -/
structure Provider (σ : Type) where
  prepare : ResolvedConfig → σ → Except DevcontainerError ProviderPreparation × σ
  ensureNetworks : ResolvedConfig → ProviderPreparation → σ → Except DevcontainerError Unit × σ
  ensureVolumes : ResolvedConfig → ProviderPreparation → σ → Except DevcontainerError Unit × σ
  buildImage : ResolvedConfig → ProviderPreparation → σ → Except DevcontainerError String × σ
  createContainer : ResolvedConfig → ProviderPreparation → String → σ →
    Except DevcontainerError RunningContainer × σ
  startContainer : RunningContainer → σ → Except DevcontainerError Unit × σ
  exec : RunningContainer → List String → σ → Except DevcontainerError ExecResult × σ

structure LifecycleOutcome where
  container : RunningContainer
  executedPhases : List LifecyclePhase
  deriving DecidableEq, Repr

/-- Sequencing of fallible stateful steps: the `?` operator with the
provider state carried across both outcomes. -/
def pstep {σ α β : Type} (r : Except DevcontainerError α × σ)
    (f : α → σ → Except DevcontainerError β × σ) : Except DevcontainerError β × σ :=
  match r with
  | (.error e, s) => (.error e, s)
  | (.ok a, s) => f a s

/-- `LifecycleExecutor::run_hook_command` (lifecycle/mod.rs lines
475–556): run one exec, then fail with a Provider error naming the hook,
the optional command name, the exit code and the trimmed stderr (when
non-empty) if the exit code is non-zero. -/
def runHookCommand {σ : Type} (p : Provider σ) (container : RunningContainer)
    (hook : LifecycleHook) (commandName : Option String) (command : CommandArgs)
    (s : σ) : Except DevcontainerError Unit × σ :=
  let args := command.toExecArgs
  pstep (p.exec container args s) fun result s =>
    let stderrTrimmed := rustTrim result.stderr
    if result.exitCode ≠ 0 then
      let base :=
        match commandName with
        | some name =>
          hookDisplay hook ++ " command \x27" ++ name ++ "\x27 failed with exit code " ++
            toString result.exitCode
        | none =>
          hookDisplay hook ++ " command failed with exit code " ++ toString result.exitCode
      let message :=
        if stderrTrimmed ≠ "" then base ++ " (" ++ stderrTrimmed ++ ")" else base
      (.error (.Provider message), s)
    else
      (.ok (), s)

/-- The loop over a parallel command map inside `run_hook` (lifecycle/mod.rs
lines 465–471): entries run sequentially in key order, stopping at the
first failure. -/
def runHookParallel {σ : Type} (p : Provider σ) (container : RunningContainer)
    (hook : LifecycleHook) :
    List (String × CommandArgs) → σ → Except DevcontainerError Unit × σ
  | [], s => (.ok (), s)
  | (name, cmd) :: rest, s =>
    pstep (runHookCommand p container hook (some name) cmd s) fun _ s =>
      runHookParallel p container hook rest s

/-- `LifecycleExecutor::run_hook` (lifecycle/mod.rs lines 455–473). -/
def runHook {σ : Type} (p : Provider σ) (container : RunningContainer)
    (hook : LifecycleHook) (command : CommandDefinition) (s : σ) :
    Except DevcontainerError Unit × σ :=
  match command with
  | .single cmd => runHookCommand p container hook none cmd s
  | .parallel commands => runHookParallel p container hook commands s

/-- `LifecycleExecutor::handle_hook` (lifecycle/mod.rs lines 429–453):
Skip does nothing; Execute without a resolved command only warns. -/
def handleHook {σ : Type} (p : Provider σ) (hook : LifecycleHook) (action : HookAction)
    (command : Option CommandDefinition) (container : RunningContainer) (s : σ) :
    Except DevcontainerError Unit × σ :=
  match action with
  | .execute =>
    match command with
    | some cmd => runHook p container hook cmd s
    | none => (.ok (), s)
  | .skip _ => (.ok (), s)

/-- One hook phase of `execute` (lifecycle/mod.rs lines 373–421): when
the plan holds a step for the phase, a hook detail for the matching hook
is acted on (any other detail is only logged), and the phase is recorded
as executed either way; without a step the phase is neither acted on nor
recorded. -/
def execHookPhase {σ : Type} (p : Provider σ) (plan : LifecyclePlan)
    (phase : LifecyclePhase) (hook : LifecycleHook) (command : Option CommandDefinition)
    (container : RunningContainer) (s : σ) :
    Except DevcontainerError (List LifecyclePhase) × σ :=
  match plan.stepForPhase phase with
  | none => (.ok [], s)
  | some step =>
    match step.event.detail with
    | .hook h action =>
      if h = hook then
        pstep (handleHook p hook action command container s) fun _ s => (.ok [phase], s)
      else (.ok [phase], s)
    | _ => (.ok [phase], s)

/-- `LifecycleExecutor::execute` (lifecycle/mod.rs lines 287–427): the
strict phase sequence.  `prepare`, `ensure_networks`, `ensure_volumes`,
`build_image`, `create_container` and `start_container` are invoked
unconditionally (plan steps for the first four phases feed only the
logging, which the embedding drops); hook phases run through
`execHookPhase`. -/
def execute {σ : Type} (p : Provider σ) (config : ResolvedConfig) (plan : LifecyclePlan)
    (s : σ) : Except DevcontainerError LifecycleOutcome × σ :=
  pstep (p.prepare config s) fun preparation s =>
  pstep (p.ensureNetworks config preparation s) fun _ s =>
  pstep (p.ensureVolumes config preparation s) fun _ s =>
  pstep (p.buildImage config preparation s) fun imageReference s =>
  pstep (p.createContainer config preparation imageReference s) fun container s =>
  pstep (p.startContainer container s) fun _ s =>
  pstep (execHookPhase p plan .postCreate .postCreate config.postCreateCommand container s)
    fun postCreatePhases s =>
  pstep (execHookPhase p plan .postAttach .postAttach config.postAttachCommand container s)
    fun postAttachPhases s =>
  (.ok {
    container := container
    executedPhases :=
      [.resolve, .build, .create, .start] ++ postCreatePhases ++ postAttachPhases }, s)

/-! ### Recording test provider

This mirrors the repository's own `TestProvider` (lifecycle/mod.rs test
module): every operation succeeds with fixed data, `exec` returns a fixed
`ExecResult`; on top of that, every invocation is appended to a trace so
that call order and argv values can be stated. -/

inductive TraceEvent where
  | prepare
  | ensureNetworks
  | ensureVolumes
  | buildImage
  | createContainer
  | startContainer
  | exec (argv : List String)
  deriving DecidableEq, Repr

/-- Whether a trace event is an `exec` invocation. -/
def TraceEvent.isExec : TraceEvent → Bool
  | .exec _ => true
  | _ => false

def testPreparation : ProviderPreparation := {
  image := .reference "example:image"
  containerName := "test-container"
  projectSlug := "demo"
  networks := ["test-network"]
  volumes := [{ name := "test-volume", mountPath := "/data" }]
  workspaceMountPath := "/workspace" }

def testContainer : RunningContainer := { id := some "container-id", name := some "test-container" }

/-- The recording fake provider, parameterized by the fixed result every
`exec` returns. -/
def testProvider (execResult : ExecResult) : Provider (List TraceEvent) := {
  prepare := fun _ tr => (.ok testPreparation, tr ++ [.prepare])
  ensureNetworks := fun _ _ tr => (.ok (), tr ++ [.ensureNetworks])
  ensureVolumes := fun _ _ tr => (.ok (), tr ++ [.ensureVolumes])
  buildImage := fun _ _ tr => (.ok "example:image:latest", tr ++ [.buildImage])
  createContainer := fun _ _ _ tr => (.ok testContainer, tr ++ [.createContainer])
  startContainer := fun _ tr => (.ok (), tr ++ [.startContainer])
  exec := fun _ argv tr => (.ok execResult, tr ++ [.exec argv]) }

/-- The argv of every `exec` call in a trace, in call order. -/
def execCallsOf (tr : List TraceEvent) : List (List String) :=
  tr.filterMap fun ev =>
    match ev with
    | .exec argv => some argv
    | _ => none

/-- The sample resolved configuration of the repository's lifecycle tests:
post-create is the single string `"echo post create"`, post-attach the
array `["echo","post-attach"]`. -/
def sampleConfig : ResolvedConfig := {
  projectName := "demo"
  workspaceFolder := "/workspace"
  containerWorkspaceFolder := some "/workspace"
  configPath := "/workspace/.devcontainer/devcontainer.json"
  imageReference := some "example:image"
  dockerfile := none
  forwardPorts := []
  postCreateCommand := some (.single (.string "echo post create"))
  postAttachCommand := some (.single (.array ["echo", "post-attach"])) }

/-- C6: with an all-succeeding provider, executing the `for_up` plan of
`sampleConfig` invokes the provider's `exec` exactly twice, first with
argv `["/bin/sh","-c","echo post create"]` and then with argv
`["echo","post-attach"]`, and the outcome's executed phases are all six
phases in plan order. -/
theorem executor_runs_hooks_via_provider_exec :
    ((execute (testProvider {}) sampleConfig (LifecyclePlan.forUp sampleConfig {}) []).1.map
        (fun outcome => outcome.executedPhases),
      execCallsOf (execute (testProvider {}) sampleConfig
        (LifecyclePlan.forUp sampleConfig {}) []).2) =
    (.ok [.resolve, .build, .create, .start, .postCreate, .postAttach],
      [["/bin/sh", "-c", "echo post create"], ["echo", "post-attach"]]) := by
  decide

/-- C7: a hook command whose exec exits non-zero aborts execution with a
Provider error naming the hook (and the command name for a parallel
map), the exit code, and the trimmed stderr when non-empty; no outcome is
produced and no further exec happens — a PostCreate failure leaves
PostAttach's exec uninvoked, and entries after a failing parallel key
never run.  Shown for all non-zero exit codes, all stdout/stderr, an
arbitrary single post-create command, an arbitrary non-empty parallel
post-create map, and an arbitrary single post-attach command failing
after a skipped PostCreate. -/
theorem hook_failure_aborts (e : Int) (stdout stderr : String) (he : e ≠ 0)
    (cmd : CommandArgs) (k : String) (c : CommandArgs)
    (rest : List (String × CommandArgs)) :
    (execute (testProvider { exitCode := e, stdout := stdout, stderr := stderr })
        { sampleConfig with postCreateCommand := some (.single cmd) }
        (LifecyclePlan.forUp
          { sampleConfig with postCreateCommand := some (.single cmd) } {}) [] =
      (.error (.Provider
        (if rustTrim stderr ≠ "" then
          hookDisplay .postCreate ++ " command failed with exit code " ++ toString e ++
            " (" ++ rustTrim stderr ++ ")"
        else hookDisplay .postCreate ++ " command failed with exit code " ++ toString e)),
       [.prepare, .ensureNetworks, .ensureVolumes, .buildImage, .createContainer,
        .startContainer, .exec cmd.toExecArgs])) ∧
    (execute (testProvider { exitCode := e, stdout := stdout, stderr := stderr })
        { sampleConfig with postCreateCommand := some (.parallel ((k, c) :: rest)) }
        (LifecyclePlan.forUp
          { sampleConfig with postCreateCommand := some (.parallel ((k, c) :: rest)) } {}) [] =
      (.error (.Provider
        (if rustTrim stderr ≠ "" then
          hookDisplay .postCreate ++ " command \x27" ++ k ++ "\x27 failed with exit code " ++
            toString e ++ " (" ++ rustTrim stderr ++ ")"
        else
          hookDisplay .postCreate ++ " command \x27" ++ k ++ "\x27 failed with exit code " ++
            toString e)),
       [.prepare, .ensureNetworks, .ensureVolumes, .buildImage, .createContainer,
        .startContainer, .exec c.toExecArgs])) ∧
    (execute (testProvider { exitCode := e, stdout := stdout, stderr := stderr })
        { sampleConfig with postCreateCommand := none,
                            postAttachCommand := some (.single cmd) }
        (LifecyclePlan.forUp
          { sampleConfig with postCreateCommand := none,
                              postAttachCommand := some (.single cmd) } {}) [] =
      (.error (.Provider
        (if rustTrim stderr ≠ "" then
          hookDisplay .postAttach ++ " command failed with exit code " ++ toString e ++
            " (" ++ rustTrim stderr ++ ")"
        else hookDisplay .postAttach ++ " command failed with exit code " ++ toString e)),
       [.prepare, .ensureNetworks, .ensureVolumes, .buildImage, .createContainer,
        .startContainer, .exec cmd.toExecArgs])) := by
  refine ⟨?_, ?_, ?_⟩
  · simp [execute, pstep, execHookPhase, handleHook, runHook, runHookCommand,
      runHookParallel, testProvider, stepForPhase_forUp_postCreate,
      stepForPhase_forUp_postAttach, postCreateStepFor, postAttachStepFor,
      postCreateActionFor, postAttachActionFor, sampleConfig, he]
  · simp [execute, pstep, execHookPhase, handleHook, runHook, runHookCommand,
      runHookParallel, testProvider, stepForPhase_forUp_postCreate,
      stepForPhase_forUp_postAttach, postCreateStepFor, postAttachStepFor,
      postCreateActionFor, postAttachActionFor, sampleConfig, he]
  · simp [execute, pstep, execHookPhase, handleHook, runHook, runHookCommand,
      runHookParallel, testProvider, stepForPhase_forUp_postCreate,
      stepForPhase_forUp_postAttach, postCreateStepFor, postAttachStepFor,
      postCreateActionFor, postAttachActionFor, sampleConfig, he]

/-- Witness instantiating `hook_failure_aborts` at the repository's own
test inputs: exit code 5, stderr `"boom"`, the single post-create command
and a two-entry parallel map. -/
theorem hook_failure_aborts_witness :
    execute (testProvider { exitCode := 5, stdout := "", stderr := "boom" })
        { sampleConfig with postCreateCommand := some (.single (.string "echo post create")) }
        (LifecyclePlan.forUp
          { sampleConfig with
              postCreateCommand := some (.single (.string "echo post create")) } {}) [] =
      (.error (.Provider "postCreate command failed with exit code 5 (boom)"),
       [.prepare, .ensureNetworks, .ensureVolumes, .buildImage, .createContainer,
        .startContainer, .exec ["/bin/sh", "-c", "echo post create"]]) ∧
    execute (testProvider { exitCode := 5, stdout := "", stderr := "boom" })
        { sampleConfig with
            postCreateCommand := some (.parallel
              [("first", .string "echo first"), ("second", .array ["echo", "second"])]) }
        (LifecyclePlan.forUp
          { sampleConfig with
              postCreateCommand := some (.parallel
                [("first", .string "echo first"),
                 ("second", .array ["echo", "second"])]) } {}) [] =
      (.error (.Provider "postCreate command \x27first\x27 failed with exit code 5 (boom)"),
       [.prepare, .ensureNetworks, .ensureVolumes, .buildImage, .createContainer,
        .startContainer, .exec ["/bin/sh", "-c", "echo first"]]) :=
  ⟨((hook_failure_aborts 5 "" "boom" (by decide) (.string "echo post create") "first"
      (.string "echo first") [("second", .array ["echo", "second"])]).1).trans (by decide),
   ((hook_failure_aborts 5 "" "boom" (by decide) (.string "echo post create") "first"
      (.string "echo first") [("second", .array ["echo", "second"])]).2.1).trans (by decide)⟩

/-- Projection facts for the recording provider, used to run `execute`
symbolically without unfolding the provider record. -/
theorem testProvider_prepare (er : ExecResult) (config : ResolvedConfig)
    (tr : List TraceEvent) :
    (testProvider er).prepare config tr = (.ok testPreparation, tr ++ [.prepare]) := rfl

theorem testProvider_ensureNetworks (er : ExecResult) (config : ResolvedConfig)
    (prep : ProviderPreparation) (tr : List TraceEvent) :
    (testProvider er).ensureNetworks config prep tr = (.ok (), tr ++ [.ensureNetworks]) := rfl

theorem testProvider_ensureVolumes (er : ExecResult) (config : ResolvedConfig)
    (prep : ProviderPreparation) (tr : List TraceEvent) :
    (testProvider er).ensureVolumes config prep tr = (.ok (), tr ++ [.ensureVolumes]) := rfl

theorem testProvider_buildImage (er : ExecResult) (config : ResolvedConfig)
    (prep : ProviderPreparation) (tr : List TraceEvent) :
    (testProvider er).buildImage config prep tr =
      (.ok "example:image:latest", tr ++ [.buildImage]) := rfl

theorem testProvider_createContainer (er : ExecResult) (config : ResolvedConfig)
    (prep : ProviderPreparation) (image : String) (tr : List TraceEvent) :
    (testProvider er).createContainer config prep image tr =
      (.ok testContainer, tr ++ [.createContainer]) := rfl

theorem testProvider_startContainer (er : ExecResult) (container : RunningContainer)
    (tr : List TraceEvent) :
    (testProvider er).startContainer container tr = (.ok (), tr ++ [.startContainer]) := rfl

theorem testProvider_exec (er : ExecResult) (container : RunningContainer)
    (argv : List String) (tr : List TraceEvent) :
    (testProvider er).exec container argv tr = (.ok er, tr ++ [.exec argv]) := rfl

/-- Trace events contributed by running one hook command definition. -/
def hookExecEvents : CommandDefinition → List TraceEvent
  | .single cmd => [.exec cmd.toExecArgs]
  | .parallel commands => commands.map (fun nc => TraceEvent.exec nc.2.toExecArgs)

theorem hookExecEvents_all_isExec (command : CommandDefinition) :
    (hookExecEvents command).all TraceEvent.isExec = true := by
  cases command with
  | single cmd => rfl
  | parallel commands =>
    induction commands with
    | nil => rfl
    | cons nc rest ih =>
      simp only [hookExecEvents, List.map_cons, List.all_cons] at ih ⊢
      exact ih

theorem runHookCommand_exit0 (stdout stderr : String) (container : RunningContainer)
    (hook : LifecycleHook) (nameOpt : Option String) (command : CommandArgs)
    (tr : List TraceEvent) :
    runHookCommand (testProvider { exitCode := 0, stdout := stdout, stderr := stderr })
        container hook nameOpt command tr =
      (.ok (), tr ++ [.exec command.toExecArgs]) := by
  simp [runHookCommand, pstep, testProvider]

theorem runHookParallel_exit0 (stdout stderr : String) (container : RunningContainer)
    (hook : LifecycleHook) :
    ∀ (commands : List (String × CommandArgs)) (tr : List TraceEvent),
      runHookParallel (testProvider { exitCode := 0, stdout := stdout, stderr := stderr })
          container hook commands tr =
        (.ok (), tr ++ commands.map (fun nc => TraceEvent.exec nc.2.toExecArgs)) := by
  intro commands
  induction commands with
  | nil => intro tr; simp [runHookParallel]
  | cons nc rest ih =>
    obtain ⟨name, cmd⟩ := nc
    intro tr
    simp [runHookParallel, runHookCommand_exit0, pstep, ih]

theorem runHook_exit0 (stdout stderr : String) (container : RunningContainer)
    (hook : LifecycleHook) (command : CommandDefinition) (tr : List TraceEvent) :
    runHook (testProvider { exitCode := 0, stdout := stdout, stderr := stderr })
        container hook command tr =
      (.ok (), tr ++ hookExecEvents command) := by
  cases command with
  | single cmd => simp [runHook, hookExecEvents, runHookCommand_exit0]
  | parallel commands => simp [runHook, hookExecEvents, runHookParallel_exit0]

theorem execHookPhase_exit0 (stdout stderr : String) (plan : LifecyclePlan)
    (phase : LifecyclePhase) (hook : LifecycleHook) (command : Option CommandDefinition)
    (container : RunningContainer) (tr : List TraceEvent) :
    ∃ evs, execHookPhase (testProvider { exitCode := 0, stdout := stdout, stderr := stderr })
        plan phase hook command container tr =
      (.ok (if (plan.stepForPhase phase).isSome then [phase] else []), tr ++ evs) ∧
      evs.all TraceEvent.isExec = true := by
  cases hstep : plan.stepForPhase phase with
  | none => exact ⟨[], by simp [execHookPhase, hstep], rfl⟩
  | some step =>
    cases hdet : step.event.detail with
    | resolveConfig a => exact ⟨[], by simp [execHookPhase, hstep, hdet], rfl⟩
    | buildImage a => exact ⟨[], by simp [execHookPhase, hstep, hdet], rfl⟩
    | createContainer a b => exact ⟨[], by simp [execHookPhase, hstep, hdet], rfl⟩
    | startContainer a => exact ⟨[], by simp [execHookPhase, hstep, hdet], rfl⟩
    | hook h action =>
      by_cases hh : h = hook
      · subst hh
        cases action with
        | skip reason =>
          exact ⟨[], by simp [execHookPhase, hstep, hdet, handleHook, pstep], rfl⟩
        | execute =>
          cases command with
          | none => exact ⟨[], by simp [execHookPhase, hstep, hdet, handleHook, pstep], rfl⟩
          | some cmd =>
            refine ⟨hookExecEvents cmd, ?_, hookExecEvents_all_isExec cmd⟩
            simp [execHookPhase, hstep, hdet, handleHook, pstep, runHook_exit0]
      · exact ⟨[], by simp [execHookPhase, hstep, hdet, hh], rfl⟩

/-- C10: with an all-succeeding provider, `execute` over any plan
whatsoever invokes prepare, ensure-networks, ensure-volumes, build,
create and start, in that order, as the first six provider calls, with
only hook `exec` calls after them; it records Resolve, Build, Create and
Start unconditionally, and records PostCreate/PostAttach exactly when the
plan contains a step for that phase — so a plan without hook steps yields
executed phases `[Resolve, Build, Create, Start]`. -/
theorem execute_phase_recording (config : ResolvedConfig) (plan : LifecyclePlan)
    (stdout stderr : String) :
    ∃ hookTrace : List TraceEvent,
      execute (testProvider { exitCode := 0, stdout := stdout, stderr := stderr })
          config plan [] =
        (.ok {
          container := testContainer
          executedPhases := [.resolve, .build, .create, .start] ++
            (if (plan.stepForPhase .postCreate).isSome then [.postCreate] else []) ++
            (if (plan.stepForPhase .postAttach).isSome then [.postAttach] else []) },
         [.prepare, .ensureNetworks, .ensureVolumes, .buildImage, .createContainer,
          .startContainer] ++ hookTrace) ∧
      hookTrace.all TraceEvent.isExec = true := by
  obtain ⟨evs1, h1, ha1⟩ := execHookPhase_exit0 stdout stderr plan .postCreate .postCreate
    config.postCreateCommand testContainer
    [.prepare, .ensureNetworks, .ensureVolumes, .buildImage, .createContainer, .startContainer]
  obtain ⟨evs2, h2, ha2⟩ := execHookPhase_exit0 stdout stderr plan .postAttach .postAttach
    config.postAttachCommand testContainer
    ([.prepare, .ensureNetworks, .ensureVolumes, .buildImage, .createContainer,
      .startContainer] ++ evs1)
  refine ⟨evs1 ++ evs2, ?_, by simp [List.all_append, ha1, ha2]⟩
  simp only [List.cons_append, List.nil_append] at h1 h2
  simp [execute, pstep, testProvider_prepare, testProvider_ensureNetworks,
    testProvider_ensureVolumes, testProvider_buildImage, testProvider_createContainer,
    testProvider_startContainer, h1, h2]

/-! ## Schema validation filtering (`crates/core/src/config/mod.rs`, lines 23–58) -/

/-- The shape of a `jsonschema` validation error as far as
`validate_against_schema` inspects it: its kind (the code only
distinguishes `OneOfMultipleValid` from everything else), its schema
path, and its `Display` rendering. -/
inductive ValidationErrorKind where
  | oneOfMultipleValid
  | other (description : String)
  deriving DecidableEq, Repr

structure ValidationViolation where
  kind : ValidationErrorKind
  schemaPath : String
  message : String
  deriving DecidableEq, Repr

/-- Whether a violation is a oneOf-multiple-valid conflict at the
document root, as tested on config/mod.rs lines 28–31. -/
def isRootOneOfConflict (err : ValidationViolation) : Bool :=
  (match err.kind with
   | .oneOfMultipleValid => true
   | .other _ => false) && err.schemaPath == "/oneOf"

/-- `validate_against_schema` (config/mod.rs lines 23–58).  The input is
`none` when the schema validator accepted the document and `some errors`
otherwise.  A non-empty error list consisting solely of root-level
`oneOf` conflicts is accepted; any other failure aggregates every
violation's message into one Configuration error. -/
def validateAgainstSchema (validation : Option (List ValidationViolation)) :
    Except DevcontainerError Unit :=
  match validation with
  | none => .ok ()
  | some collected =>
    let onlyRootOneOfConflict := !collected.isEmpty && collected.all isRootOneOfConflict
    if onlyRootOneOfConflict then .ok ()
    else
      let messages := collected.map (fun err => err.message)
      let message :=
        if messages.isEmpty then "Unknown validation error"
        else String.intercalate "; " messages
      .error (.Configuration ("Invalid devcontainer.json: " ++ message))

/-- C8: a document whose violations all are root-level oneOf conflicts
(and there is at least one) passes validation, so `resolve` proceeds; any
violation of a deeper rule makes validation fail with a single
Configuration error whose message joins every violation's rendering. -/
theorem schema_validation_root_oneof (errs : List ValidationViolation) :
    (errs ≠ [] → (∀ e ∈ errs, e.kind = .oneOfMultipleValid ∧ e.schemaPath = "/oneOf") →
      validateAgainstSchema (some errs) = .ok ()) ∧
    ((∃ e ∈ errs, ¬(e.kind = .oneOfMultipleValid ∧ e.schemaPath = "/oneOf")) →
      validateAgainstSchema (some errs) =
        .error (.Configuration ("Invalid devcontainer.json: " ++
          String.intercalate "; " (errs.map (fun err => err.message))))) := by
  constructor
  · intro hne hall
    have hisEmpty : errs.isEmpty = false := by
      cases errs with
      | nil => exact absurd rfl hne
      | cons e rest => rfl
    have hallb : errs.all isRootOneOfConflict = true := by
      rw [List.all_eq_true]
      intro e he
      obtain ⟨hk, hp⟩ := hall e he
      simp [isRootOneOfConflict, hk, hp]
    simp [validateAgainstSchema, hisEmpty, hallb]
  · intro hex
    obtain ⟨e, he, hbad⟩ := hex
    have hne : errs ≠ [] := by
      intro hnil
      rw [hnil] at he
      cases he
    have hallb : errs.all isRootOneOfConflict = false := by
      rw [Bool.eq_false_iff]
      intro hall
      rw [List.all_eq_true] at hall
      have := hall e he
      rw [isRootOneOfConflict, Bool.and_eq_true, beq_iff_eq] at this
      refine hbad ⟨?_, this.2⟩
      cases hk : e.kind with
      | oneOfMultipleValid => rfl
      | other d => rw [hk] at this; cases this.1
    have hmsgs : (errs.map (fun err => err.message)).isEmpty = false := by
      cases errs with
      | nil => exact absurd rfl hne
      | cons x rest => rfl
    simp [validateAgainstSchema, hallb, hmsgs]

/-- Witness instantiating `schema_validation_root_oneof` both ways: two
root oneOf conflicts are accepted; a deeper type violation fails with the
aggregated message. -/
theorem schema_validation_root_oneof_witness :
    validateAgainstSchema (some
      [{ kind := .oneOfMultipleValid, schemaPath := "/oneOf",
         message := "multiple subschemas match" },
       { kind := .oneOfMultipleValid, schemaPath := "/oneOf",
         message := "multiple subschemas match again" }]) = .ok () ∧
    validateAgainstSchema (some
      [{ kind := .other "type", schemaPath := "/properties/forwardPorts",
         message := "\x22not-a-number\x22 is not of type \x22integer\x22" }]) =
      .error (.Configuration
        ("Invalid devcontainer.json: " ++
          String.intercalate "; " ["\x22not-a-number\x22 is not of type \x22integer\x22"])) :=
  ⟨(schema_validation_root_oneof _).1 (by decide) (by decide),
   (schema_validation_root_oneof _).2 ⟨_, by constructor, by decide⟩⟩

/-! ## Docker provider preparation (`crates/providers/docker/src/lib.rs`) -/

/-- Rust `char::is_ascii_alphanumeric`. -/
def isAsciiAlphanumeric (c : Char) : Bool :=
  (decide (48 ≤ c.toNat) && decide (c.toNat ≤ 57)) ||
  (decide (65 ≤ c.toNat) && decide (c.toNat ≤ 90)) ||
  (decide (97 ≤ c.toNat) && decide (c.toNat ≤ 122))

/-- Rust `char::to_ascii_lowercase`. -/
def toAsciiLowercase (c : Char) : Char :=
  if 65 ≤ c.toNat ∧ c.toNat ≤ 90 then Char.ofNat (c.toNat + 32) else c

/-- `sanitize_name` (docker/src/lib.rs lines 573–599): lowercase ASCII
alphanumerics pass through, `-`/`_`/`.` pass through, everything else
becomes `-`; leading and trailing `-` are stripped; an empty result falls
back to `"devcontainer"`. -/
def sanitizeName (input : String) : String :=
  let mapped := input.data.map (fun ch =>
    if isAsciiAlphanumeric ch then toAsciiLowercase ch
    else if ch = '-' ∨ ch = '_' ∨ ch = '.' then ch
    else '-')
  let stripped :=
    ((mapped.dropWhile (fun ch => ch = '-')).reverse.dropWhile (fun ch => ch = '-')).reverse
  if stripped.isEmpty then "devcontainer" else String.mk stripped

example : sanitizeName "Sample Project" = "sample-project" := by decide

/-- `DockerProvider::prepare` (docker/src/lib.rs lines 51–105), after a
successful `verify_binary` subprocess check (pure I/O, not modelled).
Filesystem existence queries are abstracted by the `fileExists` oracle.
The workspace folder must exist; the image source is the configured
reference if present, else a build context from an existing configured
dockerfile, else a Configuration error. -/
def DockerProvider.prepare (fileExists : String → Bool) (config : ResolvedConfig) :
    Except DevcontainerError ProviderPreparation :=
  if !fileExists config.workspaceFolder then
    .error (.Configuration ("Workspace folder " ++ config.workspaceFolder ++ " does not exist"))
  else
    let projectSlug := sanitizeName config.projectName
    let containerName := "devcontainer-" ++ projectSlug
    let workspaceMountPath := "/workspaces/" ++ projectSlug
    let networkName := "devcontainer-" ++ projectSlug ++ "-network"
    let volumeName := "devcontainer-" ++ projectSlug ++ "-data"
    match config.imageReference with
    | some reference =>
      .ok {
        image := .reference reference
        containerName := containerName
        projectSlug := projectSlug
        networks := [networkName]
        volumes := [{ name := volumeName, mountPath := "/workspaces/.devcontainer" }]
        workspaceMountPath := workspaceMountPath }
    | none =>
      match config.dockerfile with
      | some dockerfile =>
        if !fileExists dockerfile then
          .error (.Configuration ("Dockerfile " ++ dockerfile ++ " does not exist"))
        else
          let buildContext := (parentPath dockerfile).getD config.workspaceFolder
          let tag := "devcontainer-" ++ projectSlug ++ ":latest"
          .ok {
            image := .build {
              dockerfile := dockerfile
              buildContext := buildContext
              tag := tag }
            containerName := containerName
            projectSlug := projectSlug
            networks := [networkName]
            volumes := [{ name := volumeName, mountPath := "/workspaces/.devcontainer" }]
            workspaceMountPath := workspaceMountPath }
      | none =>
        .error (.Configuration "devcontainer.json must define either `image` or `dockerFile`")

/-- C9 counterexample: a configuration carrying BOTH an image reference
and an existing dockerfile still prepares successfully (the image
reference wins, docker/src/lib.rs line 68), so the claimed exclusivity
invariant — exactly one of the two resolvable on every input where
`prepare` succeeds — is false. -/
theorem prepare_exclusivity_counterexample :
    DockerProvider.prepare (fun _ => true)
        { sampleConfig with dockerfile := some "/ws/Dockerfile" } =
      .ok {
        image := .reference "example:image"
        containerName := "devcontainer-demo"
        projectSlug := "demo"
        networks := ["devcontainer-demo-network"]
        volumes := [{ name := "devcontainer-demo-data", mountPath := "/workspaces/.devcontainer" }]
        workspaceMountPath := "/workspaces/demo" } ∧
    ({ sampleConfig with dockerfile := some "/ws/Dockerfile" } : ResolvedConfig).imageReference
      = some "example:image" ∧
    ({ sampleConfig with dockerfile := some "/ws/Dockerfile" } : ResolvedConfig).dockerfile
      = some "/ws/Dockerfile" ∧
    (fun (_ : String) => true) "/ws/Dockerfile" = true := by
  refine ⟨by decide, by decide, by decide, rfl⟩

/-- C9 as amended: given an existing workspace folder, at least one of
image reference or dockerfile must be resolvable or `prepare` fails with
a Configuration error: with neither configured it fails with the fixed
must-define message; with an image reference it succeeds (the reference
takes precedence); with only a dockerfile it succeeds exactly when the
file exists and otherwise fails naming the missing dockerfile.  Absence
of both is no error at resolution time: `resolve` succeeds with both
fields unset. -/
theorem prepare_image_amended (fileExists : String → Bool) (config : ResolvedConfig)
    (hws : fileExists config.workspaceFolder = true) :
    (config.imageReference = none → config.dockerfile = none →
      DockerProvider.prepare fileExists config =
        .error (.Configuration "devcontainer.json must define either `image` or `dockerFile`")) ∧
    (∀ reference, config.imageReference = some reference →
      (DockerProvider.prepare fileExists config).isOk = true) ∧
    (∀ df, config.imageReference = none → config.dockerfile = some df →
      fileExists df = true → (DockerProvider.prepare fileExists config).isOk = true) ∧
    (∀ df, config.imageReference = none → config.dockerfile = some df →
      fileExists df = false →
      DockerProvider.prepare fileExists config =
        .error (.Configuration ("Dockerfile " ++ df ++ " does not exist"))) ∧
    (∀ (name wf : Option String) (pcc pac : Option CommandDefinition)
        (configPath root : String),
      (resolveCore
          { name := name, image := none, dockerFile := none, workspaceFolder := wf,
            forwardPorts := [], postCreateCommand := pcc, postAttachCommand := pac }
          configPath root {}).map (fun c => (c.imageReference, c.dockerfile)) =
        .ok (none, none)) := by
  refine ⟨?_, ?_, ?_, ?_, ?_⟩
  · intro himg hdf
    simp [DockerProvider.prepare, hws, himg, hdf]
  · intro reference himg
    simp [DockerProvider.prepare, hws, himg, Except.isOk, Except.toBool]
  · intro df himg hdf hex
    simp [DockerProvider.prepare, hws, himg, hdf, hex, Except.isOk, Except.toBool]
  · intro df himg hdf hex
    simp [DockerProvider.prepare, hws, himg, hdf, hex]
  · intro name wf pcc pac configPath root
    cases wf with
    | none => simp [resolveCore, mapForwardPorts, Except.map]
    | some folder =>
      by_cases habs : isAbsoluteStr (rustTrimStart folder) = true
      · simp [resolveCore, mapForwardPorts, Except.map, habs]
      · simp only [Bool.not_eq_true] at habs
        simp [resolveCore, mapForwardPorts, Except.map, habs]

/-- Witness instantiating `prepare_image_amended`: the sample
configuration (image reference only) prepares successfully, and the same
configuration with both fields unset fails with the must-define error. -/
theorem prepare_image_amended_witness :
    (DockerProvider.prepare (fun _ => true) sampleConfig).isOk = true ∧
    DockerProvider.prepare (fun _ => true)
        { sampleConfig with imageReference := none, dockerfile := none } =
      .error (.Configuration "devcontainer.json must define either `image` or `dockerFile`") :=
  ⟨(prepare_image_amended (fun _ => true) sampleConfig rfl).2.1 "example:image" rfl,
   (prepare_image_amended (fun _ => true)
      { sampleConfig with imageReference := none, dockerfile := none } rfl).1 rfl rfl⟩
